import Mathlib

/-!
Verification development for the social-AI content-suggestion engine.

This file gives a shallow embedding, in Lean 4, of the generation-and-caching
engine of the repository: the retry/backoff wrapper `callWithBackoff`, the
defensive response parser, the image pipeline (`generateImagesForSuggestions`
and the per-item download loop), the staleness evaluator
(`getOrGenerateSuggestions` / `getOrGenerateUserSuggestions`), the image
materializer (`downloadImageToUploads`), the Instagram post cache
(`fetchAndStoreInstagramPosts`) and the social performance summary used by
`generateContentBasedOnProfileAndInstagram`.  External effects (the OpenAI
text and image services, HTTP downloads, the file system, the Mongo stores)
are modelled as explicit parameters and state, so every definition is
executable; theorems about the claims of the specification follow the
definitions.
-/

namespace SocialAI

/-- Characters of a JS string, modelled as a list of characters. -/
abbrev Str := List Char

/-- The backquote character (U+0060) that delimits markdown code fences. -/
def tick : Char := Char.ofNat 96

/-- An error thrown by an external call.  `status` models the JS access
`error.response?.status` (`none` when there is no HTTP response). -/
structure UpErr where
  status : Option Nat
deriving DecidableEq

instance {ε α : Type} [DecidableEq ε] [DecidableEq α] : DecidableEq (Except ε α)
  | .ok a, .ok b =>
    decidable_of_iff (a = b) ⟨fun h => h ▸ rfl, fun h => by injection h⟩
  | .ok _, .error _ => isFalse (fun h => by injection h)
  | .error _, .ok _ => isFalse (fun h => by injection h)
  | .error a, .error b =>
    decidable_of_iff (a = b) ⟨fun h => h ▸ rfl, fun h => by injection h⟩

/-- The rate-limit test of `callWithBackoff`:
`error.response?.status === 429`. -/
def isRateLimit (e : UpErr) : Bool := e.status == some 429

/-- Loop of `callWithBackoff` (src/unnamed/part_006, lines 46-63).  The JS
loop runs `i` from `0` to `retries`; here `fuel = retries - i` counts the
retries still allowed, so `fuel = 0` is exactly the JS guard `i < retries`
failing.  `fn i` is the outcome of attempt `i`; the returned list records the
sleeps performed (`delayMs`, doubled on each retry). -/
def backoffLoop {α : Type} (fn : Nat → Except UpErr α) :
    Nat → Nat → Nat → List Nat → Except UpErr α × List Nat
  | i, fuel, delayMs, sleeps =>
    match fn i with
    | .ok v => (.ok v, sleeps.reverse)
    | .error e =>
      if isRateLimit e then
        match fuel with
        | 0 => (.error e, sleeps.reverse)
        | fuel' + 1 => backoffLoop fn (i + 1) fuel' (delayMs * 2) (delayMs :: sleeps)
      else (.error e, sleeps.reverse)

/-- `callWithBackoff(fn, retries, delayMs)`: runs `fn` with retry and
exponential backoff on rate-limit errors.  Returns the final outcome together
with the list of delays slept. -/
def callWithBackoff {α : Type} (fn : Nat → Except UpErr α)
    (retries delayMs : Nat) : Except UpErr α × List Nat :=
  backoffLoop fn 0 retries delayMs []

/-- `p.isPrefix s` as a boolean, written out so proofs can unfold it char by
char (JS `String.startsWith`). -/
def startsWithStr : Str → Str → Bool
  | [], _ => true
  | _ :: _, [] => false
  | p :: ps, c :: cs => p == c && startsWithStr ps cs

/-- JS `String.trim`: drop whitespace from both ends. -/
def trimStr (s : Str) : Str :=
  ((s.dropWhile Char.isWhitespace).reverse.dropWhile Char.isWhitespace).reverse

/-- The three-backquote fence marker. -/
def fenceTicks : Str := [tick, tick, tick]

/-- The fence marker with the `json` language tag. -/
def fenceJson : Str := fenceTicks ++ ['j', 's', 'o', 'n']

/-- JS `replace(/\s*` + three backquotes + `$/, '')`: if the string ends with
a fence marker, remove it together with the whitespace run before it. -/
def stripTrailingFence (s : Str) : Str :=
  if startsWithStr fenceTicks s.reverse then
    ((s.reverse.drop 3).dropWhile Char.isWhitespace).reverse
  else s

/-- The fence-stripping step of the response parser
(content_suggestion_service.ts, lines 162-169): if the trimmed response
starts with a fenced-block marker (with or without the `json` tag), the
leading marker plus following whitespace and the trailing whitespace plus
marker are removed. -/
def stripFences (s : Str) : Str :=
  if startsWithStr fenceJson s then
    stripTrailingFence ((s.drop fenceJson.length).dropWhile Char.isWhitespace)
  else if startsWithStr fenceTicks s then
    stripTrailingFence ((s.drop fenceTicks.length).dropWhile Char.isWhitespace)
  else s

/-- A response wrapped in a `json`-tagged fence, as in the spec's example
response (fence marker, newline, payload, newline, fence marker). -/
def fenceWrap (s : Str) : Str :=
  fenceJson ++ ('\n' :: (s ++ ('\n' :: fenceTicks)))

/-- Index of the first occurrence of a character. -/
def idxOf? (c : Char) : Str → Option Nat
  | [] => none
  | a :: t => if a = c then some 0 else (idxOf? c t).map (· + 1)

/-- The regex fallback `raw.match(/\[[\s\S]*\]/)`
(content_suggestion_service.ts, line 179): the leftmost match of that greedy
regex is the substring running from the first `[` of the string to the last
`]`, provided the latter comes after the former. -/
def extractArray (s : Str) : Option Str :=
  match idxOf? '[' s, idxOf? ']' s.reverse with
  | some i, some k =>
    let j := s.length - 1 - k
    if i < j then some ((s.drop i).take (j + 1 - i)) else none
  | _, _ => none

/-- A suggestion record as produced by the generation pipeline.
`contentType` is optional because the AI may omit it (it is coerced later);
`imageUrls` is filled by the image steps. -/
structure Item where
  title : Str
  content : Str
  hashtags : List Str
  contentType : Option Str
  imageUrls : List Str
deriving DecidableEq

/-- The outcome of `JSON.parse` as far as the parser inspects it: either a
JS array of suggestion-shaped objects, or some non-array value. -/
inductive JsParsed where
  | arr (items : List Item)
  | nonArray
deriving DecidableEq

/-- The distinct failures of the parsing ladder
(content_suggestion_service.ts, lines 171-197). -/
inductive ParseError where
  /-- "Unable to parse AI response as valid JSON". -/
  | regexFallbackFailed
  /-- "No valid JSON array found in AI response". -/
  | noArrayFound
  /-- "AI response is not a valid array". -/
  | notAnArray
deriving DecidableEq

/-- The response-parsing ladder (content_suggestion_service.ts, lines
158-197).  `jp` is the `JSON.parse` of the JS runtime, modelled as an oracle
(`none` when `JSON.parse` throws).  Stage 1 strips fences from the trimmed
raw string and parses directly; only if that throws is the regex fallback
applied to the raw string; a successful parse that is not an array fails. -/
def parseAiResponse (jp : Str → Option JsParsed) (raw : Str) :
    Except ParseError (List Item) :=
  let cleaned := stripFences (trimStr raw)
  match jp cleaned with
  | some (.arr items) => .ok items
  | some .nonArray => .error .notAnArray
  | none =>
    match extractArray raw with
    | some sub =>
      match jp sub with
      | some (.arr items) => .ok items
      | some .nonArray => .error .notAnArray
      | none => .error .regexFallbackFailed
    | none => .error .noArrayFound

/-- The allowed `contentType` vocabulary
(content_suggestion_service.ts, line 383). -/
def validTypes : List Str :=
  ["Post".toList, "Story".toList, "Reel".toList, "Newsletter".toList]

/-- Post-parse coercion (content_suggestion_service.ts, lines 386-388): a
missing `contentType`, or one outside `validTypes`, becomes `"Post"`. -/
def coerceContentType (ct : Option Str) : Str :=
  match ct with
  | some t => if validTypes.contains t then t else "Post".toList
  | none => "Post".toList

/-- The DALL-E prompt built for a suggestion:
`businessType - title` (content_suggestion_service.ts, line 390). -/
def imagePromptFor (businessType : Str) (s : Item) : Str :=
  businessType ++ (" - ".toList) ++ s.title

/-- Per-item body of `generateImagesForSuggestions`
(content_suggestion_service.ts, lines 385-418).  `imageGen prompt n` is the
external image service asked for `n` images (the code asks for `n = 2`); a
failure degrades to an empty image list for the item. -/
def genImagesOne (imageGen : Str → Nat → Except UpErr (List Str))
    (businessType : Str) (s : Item) : Item :=
  let s := { s with contentType := some (coerceContentType s.contentType) }
  let p := imagePromptFor businessType s
  if (trimStr p).length < 5 then { s with imageUrls := [] }
  else
    match imageGen p 2 with
    | .ok urls => { s with imageUrls := urls }
    | .error _ => { s with imageUrls := [] }

/-- `generateImagesForSuggestions`: the in-place `for` loop over the batch is
a map of the per-item body. -/
def generateImagesForSuggestions (imageGen : Str → Nat → Except UpErr (List Str))
    (businessType : Str) (suggestions : List Item) : List Item :=
  suggestions.map (genImagesOne imageGen businessType)

/-- The locally served URL for a downloaded filename
(src/unnamed/part_006, line 145). -/
def servedUrl (filename : Str) : Str :=
  "https://aisocial.dev/api/uploads/".toList ++ filename

/-- Per-item body of the image-download loop of `getOrGenerateSuggestions`
(src/unnamed/part_006, lines 141-151): when the item has image URLs, the
first one is downloaded and the list is rewritten to the single local URL,
or to `[]` when the download fails.  `download` models
`downloadImageToUploads` returning the saved filename. -/
def materializeOne (download : Str → Except UpErr Str) (item : Item) : Item :=
  match item.imageUrls with
  | [] => item
  | url :: _ =>
    match download url with
    | .ok filename => { item with imageUrls := [servedUrl filename] }
    | .error _ => { item with imageUrls := [] }

/-- The image-download loop over a generated batch. -/
def materializeImages (download : Str → Except UpErr Str)
    (items : List Item) : List Item :=
  items.map (materializeOne download)

/-- A stored `ContentSuggestion` row: the generated item plus the fields the
controller adds on insertion. -/
structure Stored where
  item : Item
  source : Str
  refreshed : Bool
  createdAt : Nat
deriving DecidableEq

/-- A throwaway `Stored` used only as the default of `List.headD`. -/
def dfltStored : Stored := ⟨⟨[], [], [], none, []⟩, [], false, 0⟩

/-- Insert into a list kept sorted by `createdAt` descending. -/
def insertDesc (s : Stored) : List Stored → List Stored
  | [] => [s]
  | t :: ts => if t.createdAt ≤ s.createdAt then s :: t :: ts else t :: insertDesc s ts

/-- The Mongo query `.sort(\x7b createdAt: -1 \x7d)`, modelled as insertion
sort by `createdAt` descending. -/
def sortCreatedDesc : List Stored → List Stored
  | [] => []
  | s :: ss => insertDesc s (sortCreatedDesc ss)

/-- 24 hours in milliseconds (`24 * 60 * 60 * 1000`). -/
def dayMs : Nat := 24 * 60 * 60 * 1000

/-- The `BusinessProfile` fields the generation engine reads. -/
structure BizProfile where
  businessType : Str
  toneOfVoice : Str
  audienceType : Str
  marketingGoals : List Str
  contentTypes : List Str
  postLength : Str
  emojisAllowed : Bool
  favoriteEmojis : List Str
  hashtagsStyle : Str
  keywords : Str
  customHashtags : Str
deriving DecidableEq

/-- Observable external events of one `getOrGenerate` request, in order. -/
inductive Ev where
  /-- `deleteMany` on the bucket. -/
  | deleteBucket
  /-- The text-generation call (wrapped in `callWithBackoff`), with the
  requested item count. -/
  | textGen (count : Nat)
  /-- `insertMany` of `n` new rows. -/
  | insertMany (n : Nat)
deriving DecidableEq

/-- The HTTP-level outcome of a `getOrGenerate` request. -/
inductive GoResp where
  /-- 200 with the served suggestion list. -/
  | ok (suggestions : List Stored)
  /-- 404, no business profile (after the bucket was already deleted). -/
  | noProfile
  /-- The generation call threw; the error propagates via `next(err)`. -/
  | upstreamFailure (e : UpErr)
deriving DecidableEq

/-- Result of one `getOrGenerate` request: the bucket contents afterwards,
the response, and the trace of external events. -/
structure GoResult where
  bucket : List Stored
  resp : GoResp
  events : List Ev
deriving DecidableEq

/-- Builds the row inserted by `insertMany` (src/unnamed/part_006,
lines 153-161). -/
def mkStored (it : Item) (source : Str) (now : Nat) : Stored :=
  { item := it, source := source, refreshed := false, createdAt := now }

/-- `getOrGenerateSuggestions` (src/unnamed/part_006, lines 120-169), after
the auth checks.  `bucket` is the user's `ContentSuggestion` rows; `gen n` is
the backoff-wrapped `generateContentFromProfile(profile, _, _, n)` call;
`download` the image downloads.  Staleness: fewer than 3 rows, or `some` row
older than 24 h (`existing.some(...)`).  On regeneration the bucket is
deleted first, then the profile is looked up, then generation runs and the
materialized items are inserted. -/
def getOrGenerateSuggestions (profile? : Option BizProfile)
    (gen : Nat → Except UpErr (List Item)) (download : Str → Except UpErr Str)
    (now : Nat) (bucket : List Stored) : GoResult :=
  let existing := sortCreatedDesc bucket
  let isOutdated := existing.any (fun s => decide (dayMs < now - s.createdAt))
  if decide (existing.length < 3) || isOutdated then
    match profile? with
    | none => { bucket := [], resp := .noProfile, events := [.deleteBucket] }
    | some _ =>
      match gen 3 with
      | .error e =>
        { bucket := [], resp := .upstreamFailure e
          events := [.deleteBucket, .textGen 3] }
      | .ok items =>
        let saved := (materializeImages download items).map
          (fun it => mkStored it ("businessProfile".toList) now)
        { bucket := saved, resp := .ok saved
          events := [.deleteBucket, .textGen 3, .insertMany saved.length] }
  else
    { bucket := bucket, resp := .ok existing, events := [] }

/-- `getOrGenerateUserSuggestions` (src/unnamed/part_006, lines 276-377),
after the auth/Instagram checks.  Unlike the business path, staleness looks
only at the newest row: regenerate when the bucket is empty, the newest row
is older than 24 h, or there are fewer than 3 rows. -/
def getOrGenerateUserSuggestions (profile? : Option BizProfile)
    (gen : Nat → Except UpErr (List Item)) (download : Str → Except UpErr Str)
    (now : Nat) (bucket : List Stored) : GoResult :=
  let existing := sortCreatedDesc bucket
  let shouldGenerate :=
    match existing with
    | [] => true
    | latest :: _ =>
      decide (dayMs < now - latest.createdAt) || decide (existing.length < 3)
  if shouldGenerate then
    match profile? with
    | none => { bucket := [], resp := .noProfile, events := [.deleteBucket] }
    | some _ =>
      match gen 3 with
      | .error e =>
        { bucket := [], resp := .upstreamFailure e
          events := [.deleteBucket, .textGen 3] }
      | .ok items =>
        let saved := (materializeImages download items).map
          (fun it => mkStored it ("userProfile".toList) now)
        { bucket := saved, resp := .ok saved
          events := [.deleteBucket, .textGen 3, .insertMany saved.length] }
  else
    { bucket := bucket, resp := .ok existing, events := [] }

/-- The new content produced by `refreshSingleSuggestion`
(src/unnamed/part_006, lines 200-212): one generated item whose first image
is materialized, degrading to `[]` on a failed download. -/
def refreshSingleContent (gen : Nat → Except UpErr (List Item))
    (download : Str → Except UpErr Str) : Except UpErr (Option Item) :=
  match gen 1 with
  | .error e => .error e
  | .ok items =>
    match items with
    | [] => .ok none
    | item :: _ => .ok (some (materializeOne download item))

/-- The file-system and fetch-count outcome of `downloadImageToUploads`. -/
structure DlOutcome where
  result : Except UpErr Str
  files : List Str
  fetches : Nat
deriving DecidableEq

/-- The random local filename `img-` + random string + `.png`
(src/unnamed/part_006, line 17); it does not mention the URL. -/
def mkFilename (rand : Str) : Str :=
  "img-".toList ++ rand ++ ".png".toList

/-- `downloadImageToUploads` (src/unnamed/part_006, lines 13-43).  `rand` is
the random string drawn for this call, `files` the filenames already in the
uploads directory, and `fetch` the remote HTTP GET (plus the stream to disk).
If the generated filename already exists the download is skipped; otherwise
one remote fetch happens and, on success, the file is written. -/
def downloadImageToUploads (fetch : Str → Except UpErr Unit) (imageUrl : Str)
    (rand : Str) (files : List Str) : DlOutcome :=
  let filename := mkFilename rand
  if files.contains filename then
    { result := .ok filename, files := files, fetches := 0 }
  else
    match fetch imageUrl with
    | .ok _ => { result := .ok filename, files := files ++ [filename], fetches := 1 }
    | .error e => { result := .error e, files := files, fetches := 1 }

/-- A post as returned by the Instagram media API. -/
structure RemotePost where
  id : Option Str
  caption : Option Str
  mediaType : Option Str
  mediaUrl : Option Str
  likeCount : Option Nat
  commentsCount : Option Nat
deriving DecidableEq

/-- A cached `InstagramPost` row. -/
structure IgPost where
  userId : Str
  instagramId : Str
  caption : Str
  mediaType : Str
  mediaUrl : Str
  likeCount : Nat
  commentsCount : Nat
  content : Str
  contentType : Str
  imageUrls : List Str
  hashtags : List Str
deriving DecidableEq

/-- A word character of the JS regex `\w`. -/
def isWordChar (c : Char) : Bool := c.isAlphanum || c == '_'

/-- The hashtag extraction `caption.match(/#\w+/g)` with the leading `#`
stripped (content_suggestion_service.ts, line 73). -/
def extractHashtags : Str → List Str
  | [] => []
  | c :: rest =>
    if c = '#' then
      match rest.takeWhile isWordChar with
      | [] => extractHashtags rest
      | tag =>
        tag :: extractHashtags (rest.drop tag.length)
    else extractHashtags rest
termination_by s => s.length
decreasing_by
  all_goals simp [List.length_drop]
  all_goals omega

/-- The row created for a fetched Instagram post
(content_suggestion_service.ts, lines 60-78). -/
def mkIgPost (userId : Str) (p : RemotePost) (pid : Str) : IgPost :=
  let caption := p.caption.getD []
  { userId := userId
    instagramId := pid
    caption := caption
    mediaType := p.mediaType.getD ("UNKNOWN".toList)
    mediaUrl := p.mediaUrl.getD []
    likeCount := p.likeCount.getD 0
    commentsCount := p.commentsCount.getD 0
    content := caption
    contentType :=
      if p.mediaType == some ("VIDEO".toList) then "Reel".toList
      else if p.mediaType == some ("IMAGE".toList) then "Post".toList
      else "Story".toList
    imageUrls := match p.mediaUrl with | some u => [u] | none => []
    hashtags := extractHashtags caption }

/-- `fetchAndStoreInstagramPosts` (content_suggestion_service.ts, lines
25-99): for each fetched post, skip it when it has no id or when a row with
the same `instagramId` is already stored, otherwise append the mapped row. -/
def fetchAndStoreInstagramPosts (userId : Str) (posts : List RemotePost)
    (store : List IgPost) : List IgPost :=
  match posts with
  | [] => store
  | p :: rest =>
    match p.id with
    | none => fetchAndStoreInstagramPosts userId rest store
    | some pid =>
      if store.any (fun q => q.instagramId == pid) then
        fetchAndStoreInstagramPosts userId rest store
      else
        fetchAndStoreInstagramPosts userId rest (store ++ [mkIgPost userId p pid])

/-- The Instagram-cache effect of `generateContentFromProfile`
(content_suggestion_service.ts, lines 448-465) when `userId`/`accessToken`
are present and `updateInstagramPosts` is true: it fetches once itself and
`generateContentBasedOnProfileAndInstagram` (lines 239-241) fetches again
back to back. -/
def igStoreAfterGenerate (userId : Str) (posts : List RemotePost)
    (store : List IgPost) (update : Bool) : List IgPost :=
  let store1 := if update then fetchAndStoreInstagramPosts userId posts store else store
  if update then fetchAndStoreInstagramPosts userId posts store1 else store1

/-- Insert into a list kept sorted by `likeCount` descending. -/
def insertLikesDesc (p : IgPost) : List IgPost → List IgPost
  | [] => [p]
  | q :: qs => if q.likeCount ≤ p.likeCount then p :: q :: qs else q :: insertLikesDesc p qs

/-- The Mongo query `.sort(\x7b likeCount: -1 \x7d)`, modelled as insertion
sort by `likeCount` descending (ties keep relative order). -/
def sortLikesDesc : List IgPost → List IgPost
  | [] => []
  | p :: ps => insertLikesDesc p (sortLikesDesc ps)

/-- The Summarizer query of `generateContentBasedOnProfileAndInstagram`
(content_suggestion_service.ts, lines 244-248):
`find(\x7b userId \x7d).sort(\x7b likeCount: -1 \x7d).limit(5)`. -/
def topPosts (userId : Str) (cache : List IgPost) : List IgPost :=
  (sortLikesDesc (cache.filter (fun p => p.userId == userId))).take 5

/-- Decimal rendering of a number interpolated into a JS template. -/
def natStr (n : Nat) : Str := (Nat.repr n).toList

/-- JS `Array.join(sep)`. -/
def joinSep (sep : Str) (xs : List Str) : Str := List.intercalate sep xs

/-- `caption.substring(0, 100).replace(/\n/g, " ")`. -/
def truncCaption (caption : Str) : Str :=
  (caption.take 100).map (fun c => if c = '\n' then ' ' else c)

/-- One line of the top-posts digest (content_suggestion_service.ts,
lines 252-257). -/
def digestLine (idx : Nat) (p : IgPost) : Str :=
  natStr (idx + 1) ++ ". \"".toList ++ truncCaption p.caption ++
    "\" (Likes: ".toList ++ natStr p.likeCount ++
    ", Comments: ".toList ++ natStr p.commentsCount ++ ")".toList

/-- The digest lines, one per retrieved top post — note: one per member of
the whole top-5 list, not only the top 3. -/
def digestLines (tops : List IgPost) : List Str :=
  tops.enum.map (fun ip => digestLine ip.1 ip.2)

/-- `topPostsSummary` (content_suggestion_service.ts, lines 250-258). -/
def topPostsSummary (tops : List IgPost) : Str :=
  if tops.length = 0 then "No top performing posts found to learn from.".toList
  else joinSep ['\n'] (digestLines tops)

/-- `topImageUrls` (content_suggestion_service.ts, lines 262-265): media
URLs of the top posts, empty ones dropped, at most 3 kept. -/
def topImageUrls (tops : List IgPost) : List Str :=
  ((tops.map (fun p => p.mediaUrl)).filter (fun u => !u.isEmpty)).take 3

/-- `imageSection` (content_suggestion_service.ts, lines 267-269). -/
def imageSection (tops : List IgPost) : Str :=
  if (topImageUrls tops).isEmpty then []
  else "\nHere are image URLs of the top performing posts:\n".toList ++
    joinSep ['\n'] (topImageUrls tops)

/-- `profile.contentTypes.join(", ") || "Post"`. -/
def contentTypesClause (profile : BizProfile) : Str :=
  let j := joinSep (", ".toList) profile.contentTypes
  if j.isEmpty then "Post".toList else j

/-- `profile.emojisAllowed ? "Yes" : "No"`. -/
def yesNo (b : Bool) : Str := if b then "Yes".toList else "No".toList

/-- The part of the social-informed prompt template
(content_suggestion_service.ts, lines 271-288) preceding the top-posts
digest. -/
def promptHeader (profile : BizProfile) (count : Nat) : Str :=
  "\nCreate ".toList ++ natStr count ++
  " social media content suggestions in JSON format.\nEach item should include:\n- title (string)\n- content (string)\n- hashtags (array of strings) based on: \"".toList ++
  profile.hashtagsStyle ++ "\", \"".toList ++ profile.keywords ++
  "\", \"".toList ++ profile.customHashtags ++
  "\"\n- contentType (one of: ".toList ++ contentTypesClause profile ++
  ")\n\nBusiness Info:\nBusiness Type: ".toList ++ profile.businessType ++
  "\nTone: ".toList ++ profile.toneOfVoice ++
  "\nAudience: ".toList ++ profile.audienceType ++
  "\nMarketing Goals: ".toList ++ joinSep (", ".toList) profile.marketingGoals ++
  "\nPost Length: ".toList ++ profile.postLength ++
  "\nUse Emojis: ".toList ++ yesNo profile.emojisAllowed ++
  ", Favorites: ".toList ++ joinSep (" ".toList) profile.favoriteEmojis ++
  "\n\nBased on these top performing Instagram posts by the user:\n".toList

/-- The part of the social-informed prompt template
(content_suggestion_service.ts, lines 291-304) following the digest and
image section. -/
def promptFooter : Str :=
  "\n\nIMPORTANT: Return ONLY a valid JSON array. Do not include any markdown formatting, explanations, or additional text. The response must be parseable JSON.\n\nExample format:\n[\n  \x7b\n    \"title\": \"Example Title\",\n    \"content\": \"Example content with emojis 🎉\",\n    \"hashtags\": [\"example\", \"hashtag\"],\n    \"contentType\": \"Post\"\n  \x7d\n]\n\nReturn only the JSON array:\n".toList

/-- The social-informed prompt of
`generateContentBasedOnProfileAndInstagram` (content_suggestion_service.ts,
lines 271-304): the template around the digest (`summary`) and the image
section. -/
def instagramPromptFor (profile : BizProfile) (count : Nat)
    (summary imgSection : Str) : Str :=
  promptHeader profile count ++ summary ++ "\n".toList ++ imgSection ++
    promptFooter

/-! Concrete fixtures used by counterexamples and witnesses. -/

/-- One hour in milliseconds. -/
def hourMs : Nat := 60 * 60 * 1000

/-- A minimal business profile fixture. -/
def profileFix : BizProfile :=
  { businessType := "Bakery".toList
    toneOfVoice := "Friendly".toList
    audienceType := "Families".toList
    marketingGoals := []
    contentTypes := ["Post".toList]
    postLength := "short".toList
    emojisAllowed := false
    favoriteEmojis := []
    hashtagsStyle := "none".toList
    keywords := []
    customHashtags := [] }

/-- A minimal suggestion item fixture. -/
def itemFix : Item :=
  { title := "t".toList, content := "c".toList, hashtags := []
    contentType := some ("Post".toList), imageUrls := [] }

/-- A stored suggestion created at time `t`. -/
def storedAt (t : Nat) : Stored := mkStored itemFix ("businessProfile".toList) t

/-- A bucket of three suggestions aged 1 h, 2 h and 25 h at `nowFix`:
the newest is fresh but one sibling is older than 24 h. -/
def bucketFix : List Stored :=
  [storedAt (29 * hourMs), storedAt (28 * hourMs), storedAt (5 * hourMs)]

/-- The observation time for `bucketFix`. -/
def nowFix : Nat := 30 * hourMs

/-- A generation oracle that succeeds with an empty batch. -/
def genFix : Nat → Except UpErr (List Item) := fun _ => .ok []

/-- A download oracle that always fails. -/
def dlFix : Str → Except UpErr Str := fun _ => .error ⟨none⟩

/-- A generation oracle that persistently fails with a server error. -/
def genErrFix : Nat → Except UpErr (List Item) := fun _ => .error ⟨some 500⟩

/-- A suggestion item with one external image URL attached. -/
def itemImgFix : Item :=
  { title := "t".toList, content := "c".toList, hashtags := []
    contentType := some ("Post".toList)
    imageUrls := ["https://img.example/one.png".toList] }

/-- A fetch oracle whose downloads always succeed. -/
def fetchOkFix : Str → Except UpErr Unit := fun _ => .ok ()

/-- A download oracle that always succeeds with a fixed filename. -/
def dlOkFix : Str → Except UpErr Str := fun _ => .ok ("f.png".toList)

/-- A generation oracle returning a single item that has an image URL. -/
def genOneFix : Nat → Except UpErr (List Item) := fun _ => .ok [itemImgFix]

/-- A cached Instagram post fixture with the given id and like count. -/
def igFix (iid : Str) (likes : Nat) : IgPost :=
  { userId := "u".toList, instagramId := iid, caption := "cap".toList
    mediaType := "IMAGE".toList, mediaUrl := "m".toList
    likeCount := likes, commentsCount := 0, content := "cap".toList
    contentType := "Post".toList, imageUrls := [], hashtags := [] }

/-- A `JSON.parse` oracle that recognises exactly the array text `[1, 2]`
and parses it to an empty suggestion list. -/
def jpFix : Str → Option JsParsed :=
  fun s => if s = '[' :: ("1, 2".toList ++ [']']) then some (.arr []) else none

/-- A remote Instagram post fixture with id `x`. -/
def remoteFix : RemotePost :=
  { id := some ("x".toList), caption := some ("hello #sun".toList)
    mediaType := some ("IMAGE".toList), mediaUrl := some ("m".toList)
    likeCount := some 7, commentsCount := some 1 }

/-- Five cached posts with like counts 10, 50, 5, 80, 20. -/
def cacheFix : List IgPost :=
  [igFix ("a".toList) 10, igFix ("b".toList) 50, igFix ("c".toList) 5,
   igFix ("d".toList) 80, igFix ("e".toList) 20]

/-! Helper lemmas. -/

theorem length_insertDesc (s : Stored) (l : List Stored) :
    (insertDesc s l).length = l.length + 1 := by
  induction l with
  | nil => rfl
  | cons t ts ih =>
    simp only [insertDesc]
    split <;> simp [ih]

theorem length_sortCreatedDesc (l : List Stored) :
    (sortCreatedDesc l).length = l.length := by
  induction l with
  | nil => rfl
  | cons s ss ih => simp [sortCreatedDesc, length_insertDesc, ih]

theorem mem_insertDesc {x s : Stored} {l : List Stored} :
    x ∈ insertDesc s l ↔ x = s ∨ x ∈ l := by
  induction l with
  | nil => simp [insertDesc]
  | cons t ts ih =>
    simp only [insertDesc]
    split
    · simp
    · simp [ih]
      tauto

theorem mem_sortCreatedDesc {x : Stored} {l : List Stored} :
    x ∈ sortCreatedDesc l ↔ x ∈ l := by
  induction l with
  | nil => simp [sortCreatedDesc]
  | cons s ss ih => simp [sortCreatedDesc, mem_insertDesc, ih]

theorem length_materializeImages (download : Str → Except UpErr Str)
    (items : List Item) :
    (materializeImages download items).length = items.length := by
  simp [materializeImages]

theorem business_cond_of_stale (now : Nat) (bucket : List Stored)
    (hstale : bucket.length < 3 ∨ ∃ s ∈ bucket, dayMs < now - s.createdAt) :
    (decide ((sortCreatedDesc bucket).length < 3) ||
      (sortCreatedDesc bucket).any
        (fun s => decide (dayMs < now - s.createdAt))) = true := by
  rcases hstale with h | ⟨s, hs, hage⟩
  · rw [Bool.or_eq_true]
    left
    simp [length_sortCreatedDesc]
    omega
  · rw [Bool.or_eq_true]
    right
    rw [List.any_eq_true]
    exact ⟨s, mem_sortCreatedDesc.mpr hs, by simpa using hage⟩

theorem stale_business_run (profile : BizProfile)
    (gen : Nat → Except UpErr (List Item)) (download : Str → Except UpErr Str)
    (now : Nat) (bucket : List Stored)
    (hstale : bucket.length < 3 ∨ ∃ s ∈ bucket, dayMs < now - s.createdAt) :
    getOrGenerateSuggestions (some profile) gen download now bucket =
      match gen 3 with
      | .error e => ⟨[], .upstreamFailure e, [.deleteBucket, .textGen 3]⟩
      | .ok items =>
        let saved := (materializeImages download items).map
          (fun it => mkStored it ("businessProfile".toList) now)
        ⟨saved, .ok saved, [.deleteBucket, .textGen 3, .insertMany saved.length]⟩ := by
  have hc := business_cond_of_stale now bucket hstale
  cases hg : gen 3 <;> simp [getOrGenerateSuggestions, hc, hg]

theorem stale_user_run (profile : BizProfile)
    (gen : Nat → Except UpErr (List Item)) (download : Str → Except UpErr Str)
    (now : Nat) (bucket : List Stored)
    (hstale : bucket.length < 3 ∨
      dayMs < now - ((sortCreatedDesc bucket).headD dfltStored).createdAt) :
    getOrGenerateUserSuggestions (some profile) gen download now bucket =
      match gen 3 with
      | .error e => ⟨[], .upstreamFailure e, [.deleteBucket, .textGen 3]⟩
      | .ok items =>
        let saved := (materializeImages download items).map
          (fun it => mkStored it ("userProfile".toList) now)
        ⟨saved, .ok saved, [.deleteBucket, .textGen 3, .insertMany saved.length]⟩ := by
  cases h : sortCreatedDesc bucket with
  | nil =>
    cases hg : gen 3 <;> simp [getOrGenerateUserSuggestions, h, hg]
  | cons latest rest =>
    have hsl : (latest :: rest).length = bucket.length :=
      h ▸ length_sortCreatedDesc bucket
    rcases hstale with hlt | hage
    · have hr : rest.length + 1 < 3 := by
        simp at hsl
        omega
      cases hg : gen 3 <;> simp [getOrGenerateUserSuggestions, h, hr, hg]
    · have hd : dayMs < now - latest.createdAt := by
        rw [h] at hage
        simpa using hage
      cases hg : gen 3 <;> simp [getOrGenerateUserSuggestions, h, hd, hg]

/-! Theorems about the claims. -/

/-- C2: with `retries = 3` and `initialDelayMs = 1000`, an operation that
persistently fails with a rate-limit signal makes the wrapper sleep 1000 ms,
2000 ms and 4000 ms before the successive retries and then fail with the
rate-limited error; an operation whose failure is not a rate-limit signal
fails immediately with that error and no retry (no sleep) is performed. -/
theorem callWithBackoff_rate_limit_contract {α : Type}
    (fn : Nat → Except UpErr α) (e : UpErr) :
    ((∀ i, fn i = .error e) → isRateLimit e = true →
      callWithBackoff fn 3 1000 = (.error e, [1000, 2000, 4000])) ∧
    (fn 0 = .error e → isRateLimit e = false →
      callWithBackoff fn 3 1000 = (.error e, [])) := by
  constructor
  · intro h hrl
    simp [callWithBackoff, backoffLoop, h 0, h 1, h 2, h 3, hrl]
  · intro h0 hnl
    simp [callWithBackoff, backoffLoop, h0, hnl]

/-- Witness for C2: concrete persistently-rate-limited and non-rate-limited
operations. -/
theorem callWithBackoff_rate_limit_contract_witness :
    callWithBackoff (fun _ => (.error ⟨some 429⟩ : Except UpErr Nat)) 3 1000 =
      (.error ⟨some 429⟩, [1000, 2000, 4000]) ∧
    callWithBackoff (fun _ => (.error ⟨some 500⟩ : Except UpErr Nat)) 3 1000 =
      (.error ⟨some 500⟩, []) :=
  ⟨(callWithBackoff_rate_limit_contract (fun _ => .error ⟨some 429⟩)
      ⟨some 429⟩).1 (fun _ => rfl) (by decide),
   (callWithBackoff_rate_limit_contract (fun _ => .error ⟨some 500⟩)
      ⟨some 500⟩).2 rfl (by decide)⟩

/-- C1 counterexample: a bucket of 3 suggestions whose newest is 1 h old
(well within 24 h) but with a 25 h-old sibling.  The claim says such a
bucket is served unchanged with no external generation call, but
`getOrGenerateSuggestions` computes `isOutdated` with `existing.some(...)`,
so any old sibling triggers regeneration: the bucket is deleted and the
generator is called. -/
theorem staleness_newest_fresh_counterexample :
    3 ≤ bucketFix.length ∧
    nowFix - ((sortCreatedDesc bucketFix).headD dfltStored).createdAt ≤ dayMs ∧
    (getOrGenerateSuggestions (some profileFix) genFix dlFix nowFix
        bucketFix).events ≠ [] ∧
    (getOrGenerateSuggestions (some profileFix) genFix dlFix nowFix
        bucketFix).bucket ≠ bucketFix := by
  decide

/-- C1 (amended): the business-profile path serves the cached bucket
unchanged (no external events) iff it holds at least 3 suggestions and
every item — not only the newest — is at most 24 h old; otherwise it
deletes the bucket and inserts exactly the generated items (3 when the
generator honours the requested count of 3).  The Instagram path uses the
newest item's age exactly as the original claim states. -/
theorem getOrGenerate_staleness_amended (profile : BizProfile)
    (gen : Nat → Except UpErr (List Item)) (download : Str → Except UpErr Str)
    (now : Nat) (bucket : List Stored) :
    (3 ≤ bucket.length → (∀ s ∈ bucket, now - s.createdAt ≤ dayMs) →
      getOrGenerateSuggestions (some profile) gen download now bucket =
        ⟨bucket, .ok (sortCreatedDesc bucket), []⟩) ∧
    (∀ items, (bucket.length < 3 ∨ ∃ s ∈ bucket, dayMs < now - s.createdAt) →
      gen 3 = .ok items →
      getOrGenerateSuggestions (some profile) gen download now bucket =
        { bucket := (materializeImages download items).map
            (fun it => mkStored it ("businessProfile".toList) now)
          resp := .ok ((materializeImages download items).map
            (fun it => mkStored it ("businessProfile".toList) now))
          events := [.deleteBucket, .textGen 3, .insertMany items.length] }) ∧
    (3 ≤ bucket.length →
      now - ((sortCreatedDesc bucket).headD dfltStored).createdAt ≤ dayMs →
      getOrGenerateUserSuggestions (some profile) gen download now bucket =
        ⟨bucket, .ok (sortCreatedDesc bucket), []⟩) ∧
    (∀ items,
      (bucket.length < 3 ∨
        dayMs < now - ((sortCreatedDesc bucket).headD dfltStored).createdAt) →
      gen 3 = .ok items →
      getOrGenerateUserSuggestions (some profile) gen download now bucket =
        { bucket := (materializeImages download items).map
            (fun it => mkStored it ("userProfile".toList) now)
          resp := .ok ((materializeImages download items).map
            (fun it => mkStored it ("userProfile".toList) now))
          events := [.deleteBucket, .textGen 3, .insertMany items.length] }) := by
  refine ⟨?_, ?_, ?_, ?_⟩
  · intro hlen hfresh
    have hl : ¬ ((sortCreatedDesc bucket).length < 3) := by
      rw [length_sortCreatedDesc]; omega
    have ha : (sortCreatedDesc bucket).any
        (fun s => decide (dayMs < now - s.createdAt)) = false := by
      rw [List.any_eq_false]
      intro x hx
      have := hfresh x (mem_sortCreatedDesc.mp hx)
      simp
      omega
    simp [getOrGenerateSuggestions, hl, ha]
  · intro items hstale hgen
    have hc : (decide ((sortCreatedDesc bucket).length < 3) ||
        (sortCreatedDesc bucket).any
          (fun s => decide (dayMs < now - s.createdAt))) = true := by
      rcases hstale with h | ⟨s, hs, hage⟩
      · rw [Bool.or_eq_true]
        left
        simp [length_sortCreatedDesc]
        omega
      · rw [Bool.or_eq_true]
        right
        rw [List.any_eq_true]
        exact ⟨s, mem_sortCreatedDesc.mpr hs, by simpa using hage⟩
    simp [getOrGenerateSuggestions, hc, hgen, length_materializeImages]
  · intro hlen hn
    cases h : sortCreatedDesc bucket with
    | nil =>
      exfalso
      have := length_sortCreatedDesc bucket
      rw [h] at this
      simp at this
      omega
    | cons latest rest =>
      have hsl : (latest :: rest).length = bucket.length :=
        h ▸ length_sortCreatedDesc bucket
      have hlen' : ¬ (rest.length + 1 < 3) := by
        simp at hsl
        omega
      have hn' : ¬ (dayMs < now - latest.createdAt) := by
        rw [h] at hn
        simp at hn
        omega
      simp [getOrGenerateUserSuggestions, h, hlen', hn']
  · intro items hstale hgen
    cases h : sortCreatedDesc bucket with
    | nil =>
      simp [getOrGenerateUserSuggestions, h, hgen, length_materializeImages]
    | cons latest rest =>
      have hsl : (latest :: rest).length = bucket.length :=
        h ▸ length_sortCreatedDesc bucket
      rcases hstale with hlt | hage
      · have hr : rest.length + 1 < 3 := by
          simp at hsl
          omega
        simp [getOrGenerateUserSuggestions, h, hr, hgen, length_materializeImages]
      · have hd : dayMs < now - latest.createdAt := by
          rw [h] at hage
          simpa using hage
        simp [getOrGenerateUserSuggestions, h, hd, hgen, length_materializeImages]

/-- Witness for the amended C1 theorem: on `bucketFix` (stale because of the
old sibling) the business path deletes the bucket and inserts the generated
batch; a fully fresh 3-item bucket is served unchanged on both paths. -/
theorem getOrGenerate_staleness_amended_witness :
    getOrGenerateSuggestions (some profileFix) genFix dlFix nowFix bucketFix =
      { bucket := [], resp := .ok [],
        events := [.deleteBucket, .textGen 3, .insertMany 0] } ∧
    getOrGenerateSuggestions (some profileFix) genFix dlFix nowFix
        [storedAt (29 * hourMs), storedAt (28 * hourMs), storedAt (27 * hourMs)] =
      ⟨[storedAt (29 * hourMs), storedAt (28 * hourMs), storedAt (27 * hourMs)],
        .ok (sortCreatedDesc
          [storedAt (29 * hourMs), storedAt (28 * hourMs), storedAt (27 * hourMs)]),
        []⟩ ∧
    getOrGenerateUserSuggestions (some profileFix) genFix dlFix nowFix
        [storedAt (29 * hourMs), storedAt (28 * hourMs), storedAt (27 * hourMs)] =
      ⟨[storedAt (29 * hourMs), storedAt (28 * hourMs), storedAt (27 * hourMs)],
        .ok (sortCreatedDesc
          [storedAt (29 * hourMs), storedAt (28 * hourMs), storedAt (27 * hourMs)]),
        []⟩ :=
  ⟨by
    have h := (getOrGenerate_staleness_amended profileFix genFix dlFix nowFix
      bucketFix).2.1 [] (by right; exact ⟨storedAt (5 * hourMs), by decide, by decide⟩)
      (by decide)
    simpa using h,
   (getOrGenerate_staleness_amended profileFix genFix dlFix nowFix
      [storedAt (29 * hourMs), storedAt (28 * hourMs), storedAt (27 * hourMs)]).1
      (by decide) (by decide),
   (getOrGenerate_staleness_amended profileFix genFix dlFix nowFix
      [storedAt (29 * hourMs), storedAt (28 * hourMs), storedAt (27 * hourMs)]).2.2.1
      (by decide) (by decide)⟩

/-- C5: in every regeneration (of either path) the bucket deletion is the
first external event and precedes the text-generation call; when the
text-generation call then fails, nothing is inserted, the deleted rows are
not restored, and the stored bucket is left empty. -/
theorem evict_before_regenerate (profile : BizProfile)
    (gen : Nat → Except UpErr (List Item)) (download : Str → Except UpErr Str)
    (now : Nat) (bucket : List Stored) :
    ((bucket.length < 3 ∨ ∃ s ∈ bucket, dayMs < now - s.createdAt) →
      ((getOrGenerateSuggestions (some profile) gen download now
          bucket).events).take 2 = [.deleteBucket, .textGen 3]) ∧
    (∀ e, (bucket.length < 3 ∨ ∃ s ∈ bucket, dayMs < now - s.createdAt) →
      gen 3 = .error e →
      getOrGenerateSuggestions (some profile) gen download now bucket =
        ⟨[], .upstreamFailure e, [.deleteBucket, .textGen 3]⟩) ∧
    ((bucket.length < 3 ∨
        dayMs < now - ((sortCreatedDesc bucket).headD dfltStored).createdAt) →
      ((getOrGenerateUserSuggestions (some profile) gen download now
          bucket).events).take 2 = [.deleteBucket, .textGen 3]) ∧
    (∀ e, (bucket.length < 3 ∨
        dayMs < now - ((sortCreatedDesc bucket).headD dfltStored).createdAt) →
      gen 3 = .error e →
      getOrGenerateUserSuggestions (some profile) gen download now bucket =
        ⟨[], .upstreamFailure e, [.deleteBucket, .textGen 3]⟩) := by
  refine ⟨?_, ?_, ?_, ?_⟩
  · intro hstale
    rw [stale_business_run profile gen download now bucket hstale]
    cases hg : gen 3 <;> simp
  · intro e hstale hgen
    rw [stale_business_run profile gen download now bucket hstale, hgen]
  · intro hstale
    rw [stale_user_run profile gen download now bucket hstale]
    cases hg : gen 3 <;> simp
  · intro e hstale hgen
    rw [stale_user_run profile gen download now bucket hstale, hgen]

/-- Witness for C5: on the stale fixture bucket a failing generator leaves
the bucket empty after the delete-then-generate sequence. -/
theorem evict_before_regenerate_witness :
    getOrGenerateSuggestions (some profileFix) genErrFix dlFix nowFix bucketFix =
      ⟨[], .upstreamFailure ⟨some 500⟩, [.deleteBucket, .textGen 3]⟩ ∧
    getOrGenerateUserSuggestions (some profileFix) genErrFix dlFix nowFix [] =
      ⟨[], .upstreamFailure ⟨some 500⟩, [.deleteBucket, .textGen 3]⟩ :=
  ⟨(evict_before_regenerate profileFix genErrFix dlFix nowFix bucketFix).2.1
      ⟨some 500⟩ (Or.inr ⟨storedAt (5 * hourMs), by decide, by decide⟩) rfl,
   (evict_before_regenerate profileFix genErrFix dlFix nowFix []).2.2.2
      ⟨some 500⟩ (Or.inl (by decide)) rfl⟩

/-- C4: a failure generating one suggestion's image, or downloading it,
degrades that one suggestion to an empty image list while keeping its other
fields; the batch is a per-item map, so the remaining suggestions are
unaffected; and a failure of the single text-generation call aborts the
whole batch with no partial suggestion set. -/
theorem image_failure_degradation :
    (∀ (ig : Str → Nat → Except UpErr (List Str)) (bt : Str) (s : Item)
        (e : UpErr), ig (imagePromptFor bt s) 2 = .error e →
      genImagesOne ig bt s =
        { s with contentType := some (coerceContentType s.contentType)
                 imageUrls := [] }) ∧
    (∀ ig bt items, generateImagesForSuggestions ig bt items =
        items.map (genImagesOne ig bt) ∧
      (generateImagesForSuggestions ig bt items).length = items.length) ∧
    (∀ (dl : Str → Except UpErr Str) (item : Item) (url : Str)
        (rest : List Str) (e : UpErr),
      item.imageUrls = url :: rest → dl url = .error e →
      materializeOne dl item = { item with imageUrls := [] }) ∧
    (∀ dl items, materializeImages dl items = items.map (materializeOne dl) ∧
      (materializeImages dl items).length = items.length) ∧
    (∀ (profile : BizProfile) (gen : Nat → Except UpErr (List Item))
        (download : Str → Except UpErr Str) (now : Nat)
        (bucket : List Stored) (e : UpErr),
      (bucket.length < 3 ∨ ∃ s ∈ bucket, dayMs < now - s.createdAt) →
      gen 3 = .error e →
      getOrGenerateSuggestions (some profile) gen download now bucket =
        ⟨[], .upstreamFailure e, [.deleteBucket, .textGen 3]⟩) := by
  refine ⟨?_, ?_, ?_, ?_, ?_⟩
  · intro ig bt s e hgen
    simp only [genImagesOne, imagePromptFor] at hgen ⊢
    split
    · rfl
    · rw [hgen]
  · intro ig bt items
    exact ⟨rfl, by simp [generateImagesForSuggestions]⟩
  · intro dl item url rest e hiu hdl
    simp [materializeOne, hiu, hdl]
  · intro dl items
    exact ⟨rfl, by simp [materializeImages]⟩
  · intro profile gen download now bucket e hstale hgen
    rw [stale_business_run profile gen download now bucket hstale, hgen]

/-- Witness for C4: a failing image service degrades the fixture item to an
empty image list; a failing download degrades `itemImgFix`; a failing text
generation aborts the batch on a stale fixture bucket. -/
theorem image_failure_degradation_witness :
    genImagesOne (fun _ _ => .error ⟨some 503⟩) ("Bakery".toList) itemFix =
      { itemFix with contentType := some (coerceContentType itemFix.contentType)
                     imageUrls := [] } ∧
    materializeOne dlFix itemImgFix = { itemImgFix with imageUrls := [] } ∧
    getOrGenerateSuggestions (some profileFix)
        (fun _ => .error ⟨some 502⟩) dlFix nowFix [] =
      ⟨[], .upstreamFailure ⟨some 502⟩, [.deleteBucket, .textGen 3]⟩ :=
  ⟨image_failure_degradation.1 (fun _ _ => .error ⟨some 503⟩) ("Bakery".toList)
      itemFix ⟨some 503⟩ rfl,
   image_failure_degradation.2.2.1 dlFix itemImgFix
      ("https://img.example/one.png".toList) [] ⟨none⟩ rfl rfl,
   image_failure_degradation.2.2.2.2 profileFix (fun _ => .error ⟨some 502⟩)
      dlFix nowFix [] ⟨some 502⟩ (Or.inl (by decide)) rfl⟩

/-- C6: the materializer's local filename is `img-` + random string + `.png`
and never depends on the URL; when a file with that exact name already
exists the download is skipped with no remote fetch (so requesting the same
already-downloaded filename twice performs exactly one remote fetch in
total); otherwise the remote bytes are fetched once and stored, and the
suggestion's image list is rewritten to the locally served path. -/
theorem image_materialization_idempotent :
    (∀ (fetch : Str → Except UpErr Unit) (url rand : Str) (files : List Str)
        (fn : Str),
      (downloadImageToUploads fetch url rand files).result = .ok fn →
      fn = mkFilename rand) ∧
    (∀ (fetch : Str → Except UpErr Unit) (url rand : Str) (files : List Str),
      files.contains (mkFilename rand) = true →
      downloadImageToUploads fetch url rand files =
        ⟨.ok (mkFilename rand), files, 0⟩) ∧
    (∀ (fetch : Str → Except UpErr Unit) (url rand : Str) (files : List Str),
      files.contains (mkFilename rand) = false → fetch url = .ok () →
      downloadImageToUploads fetch url rand files =
        ⟨.ok (mkFilename rand), files ++ [mkFilename rand], 1⟩) ∧
    (∀ (fetch fetch' : Str → Except UpErr Unit) (url url' rand : Str)
        (files : List Str),
      files.contains (mkFilename rand) = false → fetch url = .ok () →
      (downloadImageToUploads fetch url rand files).fetches = 1 ∧
      downloadImageToUploads fetch' url' rand
          (downloadImageToUploads fetch url rand files).files =
        ⟨.ok (mkFilename rand),
          (downloadImageToUploads fetch url rand files).files, 0⟩) ∧
    (∀ (dl : Str → Except UpErr Str) (item : Item) (url : Str)
        (rest : List Str) (fn : Str),
      item.imageUrls = url :: rest → dl url = .ok fn →
      materializeOne dl item = { item with imageUrls := [servedUrl fn] }) := by
  refine ⟨?_, ?_, ?_, ?_, ?_⟩
  · intro fetch url rand files fn h
    simp only [downloadImageToUploads] at h
    split at h
    · exact (Except.ok.inj h).symm
    · split at h
      · exact (Except.ok.inj h).symm
      · exact absurd h (by simp)
  · intro fetch url rand files hc
    have hc' : mkFilename rand ∈ files := by simpa using hc
    simp [downloadImageToUploads, hc']
  · intro fetch url rand files hc hf
    have hc' : mkFilename rand ∉ files := by simpa using hc
    simp [downloadImageToUploads, hc', hf]
  · intro fetch fetch' url url' rand files hc hf
    have hc' : mkFilename rand ∉ files := by simpa using hc
    have h1 : downloadImageToUploads fetch url rand files =
        ⟨.ok (mkFilename rand), files ++ [mkFilename rand], 1⟩ := by
      simp [downloadImageToUploads, hc', hf]
    rw [h1]
    refine ⟨rfl, ?_⟩
    have hc2 : (files ++ [mkFilename rand]).contains (mkFilename rand) = true := by
      simp
    simp [downloadImageToUploads, hc2]
  · intro dl item url rest fn hiu hdl
    simp [materializeOne, hiu, hdl]

/-- Witness for C6: an empty uploads directory, a succeeding fetch: the
first call fetches once and the second call with the same random string is a
no-op; and a successful download rewrites `itemImgFix` to the served
path. -/
theorem image_materialization_idempotent_witness :
    (downloadImageToUploads fetchOkFix ("https://a".toList) ("r1".toList)
        []).fetches = 1 ∧
    downloadImageToUploads fetchOkFix ("https://b".toList) ("r1".toList)
        (downloadImageToUploads fetchOkFix ("https://a".toList) ("r1".toList)
          []).files =
      ⟨.ok (mkFilename ("r1".toList)),
        (downloadImageToUploads fetchOkFix ("https://a".toList) ("r1".toList)
          []).files, 0⟩ ∧
    materializeOne dlOkFix itemImgFix =
      { itemImgFix with imageUrls := [servedUrl ("f.png".toList)] } := by
  refine ⟨?_, ?_, ?_⟩
  · exact (image_materialization_idempotent.2.2.2.1 fetchOkFix fetchOkFix
      ("https://a".toList) ("https://b".toList) ("r1".toList) []
      (by decide) rfl).1
  · exact (image_materialization_idempotent.2.2.2.1 fetchOkFix fetchOkFix
      ("https://a".toList) ("https://b".toList) ("r1".toList) []
      (by decide) rfl).2
  · exact image_materialization_idempotent.2.2.2.2 dlOkFix itemImgFix
      ("https://img.example/one.png".toList) [] ("f.png".toList) rfl rfl

theorem materializeOne_imageUrls_len (dl : Str → Except UpErr Str)
    (item : Item) : (materializeOne dl item).imageUrls.length ≤ 1 := by
  simp only [materializeOne]
  split
  · next h => simp [h]
  · split <;> simp

theorem mem_materializeImages_len (dl : Str → Except UpErr Str)
    (items : List Item) (s : Item) (hs : s ∈ materializeImages dl items) :
    s.imageUrls.length ≤ 1 := by
  simp only [materializeImages, List.mem_map] at hs
  obtain ⟨a, _, rfl⟩ := hs
  exact materializeOne_imageUrls_len dl a

/-- C10 (implicit): even though the image service is asked for 2 images per
suggestion, every suggestion persisted by a regeneration or by the
single-item refresh carries at most one image URL, because only the first
URL is materialized. -/
theorem persisted_imageUrls_at_most_one :
    (∀ (dl : Str → Except UpErr Str) (items : List Item) (s : Item),
      s ∈ materializeImages dl items → s.imageUrls.length ≤ 1) ∧
    (∀ (profile : BizProfile) (gen : Nat → Except UpErr (List Item))
        (download : Str → Except UpErr Str) (now : Nat)
        (bucket : List Stored) (st : Stored),
      (getOrGenerateSuggestions (some profile) gen download now
        bucket).events ≠ [] →
      st ∈ (getOrGenerateSuggestions (some profile) gen download now
        bucket).bucket →
      st.item.imageUrls.length ≤ 1) ∧
    (∀ (profile : BizProfile) (gen : Nat → Except UpErr (List Item))
        (download : Str → Except UpErr Str) (now : Nat)
        (bucket : List Stored) (st : Stored),
      (getOrGenerateUserSuggestions (some profile) gen download now
        bucket).events ≠ [] →
      st ∈ (getOrGenerateUserSuggestions (some profile) gen download now
        bucket).bucket →
      st.item.imageUrls.length ≤ 1) ∧
    (∀ (gen : Nat → Except UpErr (List Item))
        (dl : Str → Except UpErr Str) (item : Item),
      refreshSingleContent gen dl = .ok (some item) →
      item.imageUrls.length ≤ 1) ∧
    (∀ (ig : Str → Nat → Except UpErr (List Str)) (bt : Str) (s : Item)
        (urls : List Str),
      5 ≤ (trimStr (imagePromptFor bt s)).length →
      ig (imagePromptFor bt s) 2 = .ok urls →
      (genImagesOne ig bt s).imageUrls = urls) := by
  refine ⟨mem_materializeImages_len, ?_, ?_, ?_, ?_⟩
  · intro profile gen download now bucket st
    simp only [getOrGenerateSuggestions]
    split
    · cases hg : gen 3 with
      | error e => intro _ hmem; simp at hmem
      | ok items =>
        intro _ hmem
        simp only [List.mem_map] at hmem
        obtain ⟨it, hit, rfl⟩ := hmem
        exact mem_materializeImages_len download items it hit
    · intro hev _
      simp at hev
  · intro profile gen download now bucket st
    simp only [getOrGenerateUserSuggestions]
    split
    · cases hg : gen 3 with
      | error e => intro _ hmem; simp at hmem
      | ok items =>
        intro _ hmem
        simp only [List.mem_map] at hmem
        obtain ⟨it, hit, rfl⟩ := hmem
        exact mem_materializeImages_len download items it hit
    · intro hev _
      simp at hev
  · intro gen dl item h
    simp only [refreshSingleContent] at h
    split at h
    · exact absurd h (by simp)
    · split at h
      · exact absurd h (by simp)
      · rw [← Option.some.inj (Except.ok.inj h)]
        exact materializeOne_imageUrls_len dl _
  · intro ig bt s urls hlen hgen
    simp only [genImagesOne, imagePromptFor] at hgen hlen ⊢
    split
    · next hshort => omega
    · rw [hgen]

/-- Witness for C10: a generated item carrying one external image URL is
persisted by the refresh path with a single rewritten local URL. -/
theorem persisted_imageUrls_at_most_one_witness :
    ({ itemImgFix with
        imageUrls := [servedUrl ("f.png".toList)] } : Item).imageUrls.length ≤ 1 ∧
    ({ itemImgFix with imageUrls := [] } : Item).imageUrls.length ≤ 1 :=
  ⟨persisted_imageUrls_at_most_one.2.2.2.1 genOneFix dlOkFix _ rfl,
   persisted_imageUrls_at_most_one.1 dlFix [itemImgFix] _ (by decide)⟩

/-- C8: post-parse validation never drops an item — the batch keeps its
length and every other field of each item — and each item's `contentType`
is coerced: a missing value or one outside the allowed vocabulary becomes
`"Post"`, so the stored `contentType` is always in the vocabulary. -/
theorem contentType_coercion_contract :
    (∀ (ig : Str → Nat → Except UpErr (List Str)) (bt : Str)
        (items : List Item),
      (generateImagesForSuggestions ig bt items).length = items.length) ∧
    (∀ (ig : Str → Nat → Except UpErr (List Str)) (bt : Str) (s : Item),
      (genImagesOne ig bt s).contentType =
        some (coerceContentType s.contentType) ∧
      (genImagesOne ig bt s).title = s.title ∧
      (genImagesOne ig bt s).content = s.content ∧
      (genImagesOne ig bt s).hashtags = s.hashtags) ∧
    (∀ t : Str, validTypes.contains t = false →
      coerceContentType (some t) = "Post".toList) ∧
    (coerceContentType none = "Post".toList) ∧
    (∀ ct : Option Str, coerceContentType ct ∈ validTypes) := by
  refine ⟨?_, ?_, ?_, rfl, ?_⟩
  · intro ig bt items
    simp [generateImagesForSuggestions]
  · intro ig bt s
    simp only [genImagesOne]
    split
    · exact ⟨rfl, rfl, rfl, rfl⟩
    · split <;> exact ⟨rfl, rfl, rfl, rfl⟩
  · intro t h
    have h' : t ∉ validTypes := by simpa using h
    simp [coerceContentType, h']
  · intro ct
    cases ct with
    | none => simp [coerceContentType, validTypes]
    | some t =>
      simp only [coerceContentType]
      split
      · next h => simpa using h
      · simp [validTypes]

/-- Witness for C8: `"Carousel"` is outside the vocabulary and is coerced to
`"Post"`. -/
theorem contentType_coercion_contract_witness :
    coerceContentType (some ("Carousel".toList)) = "Post".toList :=
  contentType_coercion_contract.2.2.1 ("Carousel".toList) (by decide)

theorem fetchStore_cons_none (u : Str) (p : RemotePost)
    (rest : List RemotePost) (store : List IgPost) (hid : p.id = none) :
    fetchAndStoreInstagramPosts u (p :: rest) store =
      fetchAndStoreInstagramPosts u rest store := by
  simp [fetchAndStoreInstagramPosts, hid]

theorem fetchStore_cons_skip (u : Str) (p : RemotePost)
    (rest : List RemotePost) (store : List IgPost) (pid : Str)
    (hid : p.id = some pid)
    (hany : store.any (fun q => q.instagramId == pid) = true) :
    fetchAndStoreInstagramPosts u (p :: rest) store =
      fetchAndStoreInstagramPosts u rest store := by
  simp only [fetchAndStoreInstagramPosts, hid]
  rw [hany, if_pos rfl]

theorem fetchStore_cons_insert (u : Str) (p : RemotePost)
    (rest : List RemotePost) (store : List IgPost) (pid : Str)
    (hid : p.id = some pid)
    (hany : store.any (fun q => q.instagramId == pid) = false) :
    fetchAndStoreInstagramPosts u (p :: rest) store =
      fetchAndStoreInstagramPosts u rest (store ++ [mkIgPost u p pid]) := by
  simp only [fetchAndStoreInstagramPosts, hid]
  rw [hany, if_neg (by simp)]

theorem fetchStore_eq_append (u : Str) (posts : List RemotePost)
    (store : List IgPost) :
    ∃ extra, fetchAndStoreInstagramPosts u posts store = store ++ extra := by
  induction posts generalizing store with
  | nil => exact ⟨[], (List.append_nil store).symm⟩
  | cons p rest ih =>
    cases hid : p.id with
    | none =>
      rw [fetchStore_cons_none u p rest store hid]
      exact ih store
    | some pid =>
      cases hany : store.any (fun q => q.instagramId == pid) with
      | true =>
        rw [fetchStore_cons_skip u p rest store pid hid hany]
        exact ih store
      | false =>
        rw [fetchStore_cons_insert u p rest store pid hid hany]
        obtain ⟨extra, he⟩ := ih (store ++ [mkIgPost u p pid])
        exact ⟨mkIgPost u p pid :: extra, by rw [he, List.append_assoc]; rfl⟩

theorem mem_fetchStore_of_mem (u : Str) (posts : List RemotePost)
    (store : List IgPost) (q : IgPost) (hq : q ∈ store) :
    q ∈ fetchAndStoreInstagramPosts u posts store := by
  obtain ⟨extra, he⟩ := fetchStore_eq_append u posts store
  rw [he]
  exact List.mem_append_left _ hq

theorem id_present_fetchStore (u pid : Str) :
    ∀ (posts : List RemotePost) (store : List IgPost) (p : RemotePost),
      p ∈ posts → p.id = some pid →
      (fetchAndStoreInstagramPosts u posts store).any
        (fun q => q.instagramId == pid) = true := by
  intro posts
  induction posts with
  | nil => intro store p hp; cases hp
  | cons a rest ih =>
    intro store p hp hid
    rcases List.mem_cons.mp hp with rfl | hmem
    · cases hany : store.any (fun q => q.instagramId == pid) with
      | true =>
        rw [fetchStore_cons_skip u p rest store pid hid hany]
        rw [List.any_eq_true] at hany
        obtain ⟨q, hq, hqe⟩ := hany
        exact List.any_eq_true.mpr
          ⟨q, mem_fetchStore_of_mem u rest store q hq, hqe⟩
      | false =>
        rw [fetchStore_cons_insert u p rest store pid hid hany]
        have hmemq : mkIgPost u p pid ∈ store ++ [mkIgPost u p pid] := by simp
        exact List.any_eq_true.mpr
          ⟨mkIgPost u p pid,
            mem_fetchStore_of_mem u rest _ _ hmemq, by simp [mkIgPost]⟩
    · cases ha : a.id with
      | none =>
        rw [fetchStore_cons_none u a rest store ha]
        exact ih store p hmem hid
      | some aid =>
        cases hany : store.any (fun q => q.instagramId == aid) with
        | true =>
          rw [fetchStore_cons_skip u a rest store aid ha hany]
          exact ih store p hmem hid
        | false =>
          rw [fetchStore_cons_insert u a rest store aid ha hany]
          exact ih _ p hmem hid

theorem fetchStore_fixed (u : Str) :
    ∀ (posts : List RemotePost) (store : List IgPost),
      (∀ p ∈ posts, ∀ pid, p.id = some pid →
        store.any (fun q => q.instagramId == pid) = true) →
      fetchAndStoreInstagramPosts u posts store = store := by
  intro posts
  induction posts with
  | nil => intro store _; rfl
  | cons a rest ih =>
    intro store hall
    cases ha : a.id with
    | none =>
      rw [fetchStore_cons_none u a rest store ha]
      exact ih store (fun p hp pid h => hall p (List.mem_cons_of_mem a hp) pid h)
    | some pid =>
      have hin := hall a (List.mem_cons_self a rest) pid ha
      rw [fetchStore_cons_skip u a rest store pid ha hin]
      exact ih store (fun p hp pid h => hall p (List.mem_cons_of_mem a hp) pid h)

theorem notMem_map_instagramId_of_any_false (pid : Str) (store : List IgPost)
    (hany : store.any (fun q => q.instagramId == pid) = false) :
    pid ∉ store.map (fun q => q.instagramId) := by
  intro hmem
  rw [List.any_eq_false] at hany
  obtain ⟨q, hq, hqe⟩ := List.mem_map.mp hmem
  exact hany q hq (by simp [hqe])

theorem fetchStore_nodup (u : Str) :
    ∀ (posts : List RemotePost) (store : List IgPost),
      (store.map (fun q => q.instagramId)).Nodup →
      ((fetchAndStoreInstagramPosts u posts store).map
        (fun q => q.instagramId)).Nodup := by
  intro posts
  induction posts with
  | nil => intro store h; exact h
  | cons a rest ih =>
    intro store hnd
    cases ha : a.id with
    | none =>
      rw [fetchStore_cons_none u a rest store ha]
      exact ih store hnd
    | some pid =>
      cases hany : store.any (fun q => q.instagramId == pid) with
      | true =>
        rw [fetchStore_cons_skip u a rest store pid ha hany]
        exact ih store hnd
      | false =>
        rw [fetchStore_cons_insert u a rest store pid ha hany]
        refine ih (store ++ [mkIgPost u a pid]) ?_
        rw [List.map_append, List.nodup_append]
        refine ⟨hnd, by simp, ?_⟩
        intro x hx hx'
        have hxe : x = pid := by
          simpa [mkIgPost] using hx'
        exact notMem_map_instagramId_of_any_false pid store hany (hxe ▸ hx)

/-- C9: a fetched post whose `instagramId` is already stored is skipped, so
re-fetching never duplicates an id: distinctness of stored ids is preserved,
re-running the same fetch is a no-op on the store, and the double
back-to-back fetch that `generateContentFromProfile` performs when
`updateInstagramPosts` is true stores exactly what a single fetch would. -/
theorem instagram_dedup_invariant :
    (∀ (u : Str) (p : RemotePost) (rest : List RemotePost)
        (store : List IgPost) (pid : Str),
      p.id = some pid → store.any (fun q => q.instagramId == pid) = true →
      fetchAndStoreInstagramPosts u (p :: rest) store =
        fetchAndStoreInstagramPosts u rest store) ∧
    (∀ (u : Str) (posts : List RemotePost) (store : List IgPost),
      (store.map (fun q => q.instagramId)).Nodup →
      ((fetchAndStoreInstagramPosts u posts store).map
        (fun q => q.instagramId)).Nodup) ∧
    (∀ (u : Str) (posts : List RemotePost) (store : List IgPost),
      fetchAndStoreInstagramPosts u posts
          (fetchAndStoreInstagramPosts u posts store) =
        fetchAndStoreInstagramPosts u posts store) ∧
    (∀ (u : Str) (posts : List RemotePost) (store : List IgPost),
      igStoreAfterGenerate u posts store true =
        fetchAndStoreInstagramPosts u posts store) := by
  have hidem : ∀ (u : Str) (posts : List RemotePost) (store : List IgPost),
      fetchAndStoreInstagramPosts u posts
          (fetchAndStoreInstagramPosts u posts store) =
        fetchAndStoreInstagramPosts u posts store := by
    intro u posts store
    exact fetchStore_fixed u posts _
      (fun p hp pid h => id_present_fetchStore u pid posts store p hp h)
  refine ⟨?_, fetchStore_nodup, hidem, ?_⟩
  · intro u p rest store pid hid hany
    exact fetchStore_cons_skip u p rest store pid hid hany
  · intro u posts store
    simp only [igStoreAfterGenerate, if_pos rfl]
    exact hidem u posts store

/-- Witness for C9: with post id `x` already stored, the fetch skips it;
fetching into an empty store keeps the ids distinct. -/
theorem instagram_dedup_invariant_witness :
    fetchAndStoreInstagramPosts ("u".toList) [remoteFix]
        [igFix ("x".toList) 1] =
      fetchAndStoreInstagramPosts ("u".toList) [] [igFix ("x".toList) 1] ∧
    ((fetchAndStoreInstagramPosts ("u".toList) [remoteFix] []).map
      (fun q => q.instagramId)).Nodup :=
  ⟨instagram_dedup_invariant.1 ("u".toList) remoteFix [] [igFix ("x".toList) 1]
      ("x".toList) rfl (by decide),
   instagram_dedup_invariant.2.1 ("u".toList) [remoteFix] [] (by decide)⟩

theorem mem_insertLikesDesc {x p : IgPost} {l : List IgPost} :
    x ∈ insertLikesDesc p l ↔ x = p ∨ x ∈ l := by
  induction l with
  | nil => simp [insertLikesDesc]
  | cons q qs ih =>
    simp only [insertLikesDesc]
    split
    · simp
    · simp [ih]
      tauto

theorem perm_insertLikesDesc (p : IgPost) (l : List IgPost) :
    List.Perm (insertLikesDesc p l) (p :: l) := by
  induction l with
  | nil => rfl
  | cons q qs ih =>
    simp only [insertLikesDesc]
    split
    · rfl
    · exact (ih.cons q).trans (List.Perm.swap p q qs)

theorem perm_sortLikesDesc (l : List IgPost) : List.Perm (sortLikesDesc l) l := by
  induction l with
  | nil => rfl
  | cons p ps ih =>
    exact (perm_insertLikesDesc p (sortLikesDesc ps)).trans (ih.cons p)

theorem pairwise_insertLikesDesc (p : IgPost) (l : List IgPost)
    (h : l.Pairwise (fun a b => b.likeCount ≤ a.likeCount)) :
    (insertLikesDesc p l).Pairwise (fun a b => b.likeCount ≤ a.likeCount) := by
  induction l with
  | nil => simp [insertLikesDesc]
  | cons q qs ih =>
    have h' := List.pairwise_cons.mp h
    simp only [insertLikesDesc]
    split
    · next hle =>
      refine List.Pairwise.cons ?_ h
      intro x hx
      rcases List.mem_cons.mp hx with rfl | hxq
      · exact hle
      · exact Nat.le_trans (h'.1 x hxq) hle
    · next hgt =>
      refine List.Pairwise.cons ?_ (ih h'.2)
      intro x hx
      rcases mem_insertLikesDesc.mp hx with rfl | hxqs
      · omega
      · exact h'.1 x hxqs

theorem pairwise_sortLikesDesc (l : List IgPost) :
    (sortLikesDesc l).Pairwise (fun a b => b.likeCount ≤ a.likeCount) := by
  induction l with
  | nil => simp [sortLikesDesc]
  | cons p ps ih => exact pairwise_insertLikesDesc p (sortLikesDesc ps) ih

/-- C7 counterexample: with five cached posts of like counts
10, 50, 5, 80, 20 the Summarizer's top list is the full ranked top 5, and
the digest embedded in the prompt has one line per retrieved post — five
lines, not the claimed three (only the image URLs are cut to 3). -/
theorem summarizer_digest_top5_counterexample :
    (topPosts ("u".toList) cacheFix).map (fun p => p.likeCount) =
      [80, 50, 20, 10, 5] ∧
    (digestLines (topPosts ("u".toList) cacheFix)).length = 5 ∧
    (digestLines (topPosts ("u".toList) cacheFix)).length ≠ 3 := by
  decide

/-- C7 (amended): the Summarizer ranks cached posts by `likeCount`
descending and returns the top 5; the social-informed prompt embeds a
ranked digest with one line (truncated caption plus like/comment counts)
for each of those top-5 posts — of which the first three are the top 3 —
and up to 3 of their image URLs.  Cached posts with like counts
[10, 50, 5, 80, 20] yield the digest order [80, 50, 20, 10, 5], whose
first three are [80, 50, 20]. -/
theorem summarizer_ranking_amended :
    (∀ cache : List IgPost,
      (sortLikesDesc cache).Pairwise (fun a b => b.likeCount ≤ a.likeCount) ∧
      List.Perm (sortLikesDesc cache) cache) ∧
    (∀ (u : Str) (cache : List IgPost),
      (topPosts u cache).Pairwise (fun a b => b.likeCount ≤ a.likeCount) ∧
      (topPosts u cache).length ≤ 5) ∧
    (∀ tops : List IgPost, (digestLines tops).length = tops.length) ∧
    (∀ tops : List IgPost, (topImageUrls tops).length ≤ 3) ∧
    (∀ (profile : BizProfile) (count : Nat) (tops : List IgPost),
      ∃ pre post,
        instagramPromptFor profile count (topPostsSummary tops)
          (imageSection tops) = pre ++ topPostsSummary tops ++ post) ∧
    ((topPosts ("u".toList) cacheFix).map (fun p => p.likeCount) =
        [80, 50, 20, 10, 5] ∧
      ((topPosts ("u".toList) cacheFix).take 3).map (fun p => p.likeCount) =
        [80, 50, 20]) := by
  refine ⟨?_, ?_, ?_, ?_, ?_, by decide, by decide⟩
  · intro cache
    exact ⟨pairwise_sortLikesDesc cache, perm_sortLikesDesc cache⟩
  · intro u cache
    constructor
    · exact (pairwise_sortLikesDesc (cache.filter (fun p => p.userId == u))).take
    · simp [topPosts]
  · intro tops
    simp [digestLines]
  · intro tops
    simp [topImageUrls]
  · intro profile count tops
    exact ⟨promptHeader profile count,
      "\n".toList ++ imageSection tops ++ promptFooter, by
        simp [instagramPromptFor, List.append_assoc]⟩

theorem startsWith_append_self : ∀ (p s : Str), startsWithStr p (p ++ s) = true := by
  intro p
  induction p with
  | nil => intro s; rfl
  | cons a t ih => intro s; simp [startsWithStr, ih s]

theorem startsWith_head_ne (a b : Char) (p s : Str) (h : (a == b) = false) :
    startsWithStr (a :: p) (b :: s) = false := by
  simp only [startsWithStr, h, Bool.false_and]

theorem trimStr_sandwich (c d : Char) (xs : Str) (hc : c.isWhitespace = false)
    (hd : d.isWhitespace = false) :
    trimStr (c :: (xs ++ [d])) = c :: (xs ++ [d]) := by
  have h1 : (c :: (xs ++ [d])).dropWhile Char.isWhitespace = c :: (xs ++ [d]) := by
    simp [List.dropWhile_cons, hc]
  have h2 : (c :: (xs ++ [d])).reverse = d :: (xs.reverse ++ [c]) := by
    simp
  have h3 : (d :: (xs.reverse ++ [c])).dropWhile Char.isWhitespace =
      d :: (xs.reverse ++ [c]) := by
    simp [List.dropWhile_cons, hd]
  rw [trimStr, h1, h2, h3, ← h2, List.reverse_reverse]

theorem idxOf?_cons_self (c : Char) (t : Str) : idxOf? c (c :: t) = some 0 := by
  simp [idxOf?]

theorem idxOf?_cons_ne (a c : Char) (t : Str) (h : ¬ a = c) :
    idxOf? c (a :: t) = (idxOf? c t).map (· + 1) := by
  simp [idxOf?, h]

theorem idxOf?_append_of_not_mem :
    ∀ (p : Str) (c : Char) (s : Str), c ∉ p →
      idxOf? c (p ++ s) = (idxOf? c s).map (· + p.length) := by
  intro p
  induction p with
  | nil =>
    intro c s _
    cases h : idxOf? c s <;> simp [h]
  | cons a t ih =>
    intro c s hmem
    have hac : ¬ a = c := fun hh => hmem (by simp [hh])
    rw [List.cons_append, idxOf?_cons_ne a c _ hac,
        ih c s (fun hm => hmem (List.mem_cons_of_mem a hm))]
    cases h : idxOf? c s with
    | none => simp
    | some k =>
      simp
      omega

theorem extractArray_sandwich (p₁ p₂ mid : Str) (h₁ : '[' ∉ p₁)
    (h₂ : ']' ∉ p₂) :
    extractArray (p₁ ++ (('[' :: (mid ++ [']'])) ++ p₂)) =
      some ('[' :: (mid ++ [']'])) := by
  have hidx1 : idxOf? '[' (p₁ ++ (('[' :: (mid ++ [']'])) ++ p₂)) =
      some p₁.length := by
    rw [idxOf?_append_of_not_mem p₁ '[' _ h₁, List.cons_append,
        idxOf?_cons_self]
    simp
  have hrev : (p₁ ++ (('[' :: (mid ++ [']'])) ++ p₂)).reverse =
      p₂.reverse ++ (']' :: ((mid.reverse ++ ['[']) ++ p₁.reverse)) := by
    simp
  have hidx2 : idxOf? ']' (p₁ ++ (('[' :: (mid ++ [']'])) ++ p₂)).reverse =
      some p₂.length := by
    rw [hrev, idxOf?_append_of_not_mem _ ']' _ (by simpa using h₂),
        idxOf?_cons_self]
    simp
  have hlen : (p₁ ++ (('[' :: (mid ++ [']'])) ++ p₂)).length =
      p₁.length + (mid.length + 2) + p₂.length := by
    simp
    omega
  have hj : (p₁ ++ (('[' :: (mid ++ [']'])) ++ p₂)).length - 1 - p₂.length =
      p₁.length + (mid.length + 1) := by
    rw [hlen]
    omega
  simp only [extractArray, hidx1, hidx2, hj]
  rw [if_pos (by omega)]
  have harith : p₁.length + (mid.length + 1) + 1 - p₁.length =
      ('[' :: (mid ++ [']'])).length := by
    simp
    omega
  rw [harith, List.drop_left, List.take_left]

theorem extractArray_bare (mid : Str) :
    extractArray ('[' :: (mid ++ [']'])) = some ('[' :: (mid ++ [']'])) := by
  have := extractArray_sandwich [] [] mid (by simp) (by simp)
  simpa using this

theorem fenceJson_cons : fenceJson = tick :: [tick, tick, 'j', 's', 'o', 'n'] := rfl

theorem fenceTicks_cons : fenceTicks = tick :: [tick, tick] := rfl

theorem stripFences_bare (mid : Str) :
    stripFences ('[' :: (mid ++ [']'])) = '[' :: (mid ++ [']']) := by
  have h1 : startsWithStr fenceJson ('[' :: (mid ++ [']'])) = false := by
    rw [fenceJson_cons]
    exact startsWith_head_ne tick '[' _ _ (by decide)
  have h2 : startsWithStr fenceTicks ('[' :: (mid ++ [']'])) = false := by
    rw [fenceTicks_cons]
    exact startsWith_head_ne tick '[' _ _ (by decide)
  simp [stripFences, h1, h2]

theorem trimStr_bare (mid : Str) :
    trimStr ('[' :: (mid ++ [']'])) = '[' :: (mid ++ [']']) :=
  trimStr_sandwich '[' ']' mid (by decide) (by decide)

theorem cleaned_bare (mid : Str) :
    stripFences (trimStr ('[' :: (mid ++ [']']))) = '[' :: (mid ++ [']']) := by
  rw [trimStr_bare, stripFences_bare]

theorem fenceWrap_shape (mid : Str) :
    fenceWrap ('[' :: (mid ++ [']'])) =
      tick :: (([tick, tick, 'j', 's', 'o', 'n', '\n'] ++
        (('[' :: (mid ++ [']'])) ++ ['\n', tick, tick])) ++ [tick]) := by
  simp [fenceWrap, fenceJson, fenceTicks]

theorem trimStr_fenceWrap (mid : Str) :
    trimStr (fenceWrap ('[' :: (mid ++ [']']))) =
      fenceWrap ('[' :: (mid ++ [']'])) := by
  rw [fenceWrap_shape,
    trimStr_sandwich tick tick _ (by decide) (by decide)]

theorem reverse_fenceTicks : fenceTicks.reverse = fenceTicks := by decide

theorem stripFences_fenceWrap (mid : Str) :
    stripFences (fenceWrap ('[' :: (mid ++ [']']))) = '[' :: (mid ++ [']']) := by
  have hsw : startsWithStr fenceJson
      (fenceWrap ('[' :: (mid ++ [']']))) = true := by
    rw [fenceWrap]
    exact startsWith_append_self fenceJson _
  have hdrop : (fenceWrap ('[' :: (mid ++ [']']))).drop fenceJson.length =
      '\n' :: (('[' :: (mid ++ [']'])) ++ ('\n' :: fenceTicks)) := by
    rw [fenceWrap]
    exact List.drop_left _ _
  have t1 : Char.isWhitespace '\n' = true := by decide
  have t2 : Char.isWhitespace '[' = false := by decide
  have t3 : Char.isWhitespace ']' = false := by decide
  have hdw : ('\n' :: (('[' :: (mid ++ [']'])) ++
      ('\n' :: fenceTicks))).dropWhile Char.isWhitespace =
      ('[' :: (mid ++ [']'])) ++ ('\n' :: fenceTicks) := by
    simp [List.dropWhile_cons, List.cons_append, t1, t2]
  have hrev : ((('[' :: (mid ++ [']'])) ++ ('\n' :: fenceTicks)).reverse) =
      fenceTicks ++ ('\n' :: ('[' :: (mid ++ [']'])).reverse) := by
    simp [fenceTicks]
  have hstf : stripTrailingFence
      ((('[' :: (mid ++ [']'])) ++ ('\n' :: fenceTicks))) =
      '[' :: (mid ++ [']']) := by
    have hsw2 : startsWithStr fenceTicks
        ((('[' :: (mid ++ [']'])) ++ ('\n' :: fenceTicks)).reverse) = true := by
      rw [hrev]
      exact startsWith_append_self fenceTicks _
    have hd3 : (fenceTicks ++
        ('\n' :: ('[' :: (mid ++ [']'])).reverse)).drop 3 =
        '\n' :: ('[' :: (mid ++ [']'])).reverse := by
      rw [show (3 : Nat) = fenceTicks.length from rfl]
      exact List.drop_left _ _
    have hbrev : ('[' :: (mid ++ [']'])).reverse =
        ']' :: (mid.reverse ++ ['[']) := by
      simp
    have hdw2 : ('\n' :: ('[' :: (mid ++ [']'])).reverse).dropWhile
        Char.isWhitespace = ('[' :: (mid ++ [']'])).reverse := by
      rw [hbrev]
      simp [List.dropWhile_cons, t1, t3]
    simp only [stripTrailingFence, hsw2, if_true]
    rw [hrev, hd3, hdw2, List.reverse_reverse]
  simp only [stripFences, hsw, if_true, hdrop, hdw, hstf]

theorem cleaned_fenceWrap (mid : Str) :
    stripFences (trimStr (fenceWrap ('[' :: (mid ++ [']'])))) =
      '[' :: (mid ++ [']']) := by
  rw [trimStr_fenceWrap, stripFences_fenceWrap]

theorem extractArray_fenceWrap (mid : Str) :
    extractArray (fenceWrap ('[' :: (mid ++ [']']))) =
      some ('[' :: (mid ++ [']'])) := by
  have hshape : fenceWrap ('[' :: (mid ++ [']'])) =
      (fenceJson ++ ['\n']) ++
        (('[' :: (mid ++ [']'])) ++ ('\n' :: fenceTicks)) := by
    simp [fenceWrap]
  rw [hshape]
  exact extractArray_sandwich (fenceJson ++ ['\n']) ('\n' :: fenceTicks) mid
    (by decide) (by decide)

/-- C3: the parsing ladder first strips the fence marker from the trimmed
response and attempts a direct array parse; only when that throws does it
extract the first-`[`-to-last-`]` substring of the raw response and parse
that; when both fail, or the parsed value is not an array, parsing fails.
Consequently a `json`-fenced array parses exactly as the bare array does,
and prose before and after a valid array still parses via the fallback. -/
theorem response_parsing_ladder :
    (∀ (jp : Str → Option JsParsed) (raw : Str) (v : List Item),
      jp (stripFences (trimStr raw)) = some (.arr v) →
      parseAiResponse jp raw = .ok v) ∧
    (∀ (jp : Str → Option JsParsed) (raw : Str),
      jp (stripFences (trimStr raw)) = some .nonArray →
      parseAiResponse jp raw = .error .notAnArray) ∧
    (∀ (jp : Str → Option JsParsed) (raw : Str),
      jp (stripFences (trimStr raw)) = none → extractArray raw = none →
      parseAiResponse jp raw = .error .noArrayFound) ∧
    (∀ (jp : Str → Option JsParsed) (raw sub : Str) (v : List Item),
      jp (stripFences (trimStr raw)) = none → extractArray raw = some sub →
      jp sub = some (.arr v) → parseAiResponse jp raw = .ok v) ∧
    (∀ (jp : Str → Option JsParsed) (raw sub : Str),
      jp (stripFences (trimStr raw)) = none → extractArray raw = some sub →
      jp sub = some .nonArray →
      parseAiResponse jp raw = .error .notAnArray) ∧
    (∀ (jp : Str → Option JsParsed) (raw sub : Str),
      jp (stripFences (trimStr raw)) = none → extractArray raw = some sub →
      jp sub = none → parseAiResponse jp raw = .error .regexFallbackFailed) ∧
    (∀ (jp : Str → Option JsParsed) (mid : Str),
      parseAiResponse jp (fenceWrap ('[' :: (mid ++ [']']))) =
        parseAiResponse jp ('[' :: (mid ++ [']']))) ∧
    (∀ (jp : Str → Option JsParsed) (p₁ p₂ mid : Str) (v : List Item),
      '[' ∉ p₁ → ']' ∉ p₂ →
      jp (stripFences (trimStr (p₁ ++ (('[' :: (mid ++ [']'])) ++ p₂)))) =
        none →
      jp ('[' :: (mid ++ [']'])) = some (.arr v) →
      parseAiResponse jp (p₁ ++ (('[' :: (mid ++ [']'])) ++ p₂)) = .ok v) := by
  refine ⟨?_, ?_, ?_, ?_, ?_, ?_, ?_, ?_⟩
  · intro jp raw v h
    simp [parseAiResponse, h]
  · intro jp raw h
    simp [parseAiResponse, h]
  · intro jp raw h he
    simp [parseAiResponse, h, he]
  · intro jp raw sub v h he hs
    simp [parseAiResponse, h, he, hs]
  · intro jp raw sub h he hs
    simp [parseAiResponse, h, he, hs]
  · intro jp raw sub h he hs
    simp [parseAiResponse, h, he, hs]
  · intro jp mid
    simp only [parseAiResponse, cleaned_fenceWrap, cleaned_bare,
      extractArray_fenceWrap, extractArray_bare]
  · intro jp p₁ p₂ mid v h1 h2 hdirect harr
    simp only [parseAiResponse, hdirect,
      extractArray_sandwich p₁ p₂ mid h1 h2, harr]

/-- Witness for C3: the raw array text `[1, 2]` parses directly, and the
same array surrounded by prose parses via the regex fallback. -/
theorem response_parsing_ladder_witness :
    parseAiResponse jpFix ('[' :: ("1, 2".toList ++ [']'])) = .ok [] ∧
    parseAiResponse jpFix ("Sure: ".toList ++
      (('[' :: ("1, 2".toList ++ [']'])) ++ " done.".toList)) = .ok [] :=
  ⟨response_parsing_ladder.1 jpFix ('[' :: ("1, 2".toList ++ [']'])) []
      (by decide),
   response_parsing_ladder.2.2.2.2.2.2.2 jpFix ("Sure: ".toList)
      (" done.".toList) ("1, 2".toList) [] (by decide) (by decide) (by decide)
      (by decide)⟩

end SocialAI
